import Mathlib

/-!
Shallow embedding of the Space Invaders simulation core (src/main.py).

The pygame host boundary (window, rendering, clocks, raw key events) is
external; the embedding models the simulation state and the per-tick
transition exactly as the source computes it.  Positions and sizes are the
exact Python integers (pygame.Rect stores ints), so they are `Int` here;
counters that the source only ever assigns non-negative values and guards
before decrementing (`cooldown`, `score`, `level`, enemy `speed`) are `Nat`.
`player.lives` is `Int` because the source decrements it without a guard and
compares it with `<= 0`.
-/

namespace SpaceInvaders

/-- Game configuration constants from the top of src/main.py. -/
def WIDTH : Int := 800

def HEIGHT : Int := 600

def FPS : Nat := 60

def PLAYER_SPEED : Int := 5

def BULLET_SPEED : Int := 8

def ENEMY_ROWS : Nat := 4

def ENEMY_COLS : Nat := 8

def ENEMY_HORIZONTAL_PADDING : Int := 60

def ENEMY_VERTICAL_PADDING : Int := 50

def ENEMY_HORIZONTAL_SPACING : Int := 60

def ENEMY_VERTICAL_SPACING : Int := 50

def ENEMY_VERTICAL_STEP : Int := 20

def ENEMY_SPEED : Nat := 1

def PLAYER_LIVES : Int := 3

def ENEMY_WIDTH : Int := 40

def ENEMY_HEIGHT : Int := 30

/-- pygame.Rect with integer position and size. -/
structure Rect where
  x : Int
  y : Int
  w : Int
  h : Int
deriving DecidableEq, Repr

def Rect.left (r : Rect) : Int := r.x

def Rect.right (r : Rect) : Int := r.x + r.w

def Rect.top (r : Rect) : Int := r.y

def Rect.bottom (r : Rect) : Int := r.y + r.h

def Rect.centerx (r : Rect) : Int := r.x + r.w / 2

/-- pygame.Rect.colliderect: strict-overlap AABB test (touching edges do not
collide). -/
def Rect.colliderect (a b : Rect) : Bool :=
  decide (a.x < b.x + b.w ∧ a.y < b.y + b.h ∧ a.x + a.w > b.x ∧ a.y + a.h > b.y)

/-- Bullet dataclass: rect, speed, active flag (default True). -/
structure Bullet where
  rect : Rect
  speed : Int
  active : Bool
deriving DecidableEq, Repr

/-- Bullet.update: move up by speed; deactivate once the bottom passes above
the top of the playfield. -/
def Bullet.update (b : Bullet) : Bullet :=
  let r : Rect := { b.rect with y := b.rect.y - b.speed }
  { b with rect := r, active := if r.bottom < 0 then false else b.active }

/-- Enemy dataclass: rect and speed. -/
structure Enemy where
  rect : Rect
  speed : Nat
deriving DecidableEq, Repr

/-- Player: rect, lives, shot cooldown. -/
structure Player where
  rect : Rect
  lives : Int
  cooldown : Nat
deriving DecidableEq, Repr

/-- Player.__init__. -/
def Player.init : Player :=
  { rect := { x := WIDTH / 2 - 25, y := HEIGHT - 60, w := 50, h := 30 },
    lives := PLAYER_LIVES, cooldown := 0 }

/-- Player.move: shift by dx * PLAYER_SPEED, clamp into [0, WIDTH - width]. -/
def Player.move (p : Player) (dx : Int) : Player :=
  { p with rect :=
      { p.rect with x := max 0 (min (WIDTH - p.rect.w) (p.rect.x + dx * PLAYER_SPEED)) } }

/-- Player.update: decrement cooldown toward zero. -/
def Player.update (p : Player) : Player :=
  if p.cooldown > 0 then { p with cooldown := p.cooldown - 1 } else p

/-- Player.shoot: when cooldown is zero, emit a bullet above the ship center
and reset cooldown to FPS // 4; otherwise return none and leave the player
unchanged.  The pair carries the (possibly updated) player. -/
def Player.shoot (p : Player) : Option Bullet × Player :=
  if p.cooldown = 0 then
    (some { rect := { x := p.rect.centerx - 3, y := p.rect.top - 10, w := 6, h := 12 },
            speed := BULLET_SPEED, active := true },
     { p with cooldown := FPS / 4 })
  else (none, p)

/-- Total width of the enemy grid, from SpaceInvaders._spawn_enemies. -/
def enemyTotalWidth : Int := ((ENEMY_COLS : Int) - 1) * ENEMY_HORIZONTAL_SPACING + ENEMY_WIDTH

/-- Left edge of the spawned grid: centered, or the minimum left padding. -/
def enemyStartX : Int := max ENEMY_HORIZONTAL_PADDING ((WIDTH - enemyTotalWidth) / 2)

/-- The enemy spawned at a given grid cell by SpaceInvaders._spawn_enemies. -/
def enemyAt (level row col : Nat) : Enemy :=
  { rect := { x := enemyStartX + (col : Int) * ENEMY_HORIZONTAL_SPACING,
              y := ENEMY_VERTICAL_PADDING + (row : Int) * ENEMY_VERTICAL_SPACING,
              w := ENEMY_WIDTH, h := ENEMY_HEIGHT },
    speed := ENEMY_SPEED + level - 1 }

/-- The full freshly spawned wave for a given level (row-major order, as the
nested loops of _spawn_enemies append). -/
def enemyGrid (level : Nat) : List Enemy :=
  (List.range ENEMY_ROWS).flatMap
    (fun row => (List.range ENEMY_COLS).map (fun col => enemyAt level row col))

/-- Simulation state: the fields of the SpaceInvaders object that the
simulation reads and writes (screen/clock/font are host-boundary only). -/
structure GameState where
  player : Player
  bullets : List Bullet
  enemies : List Enemy
  enemy_direction : Int
  level : Nat
  score : Nat
  running : Bool
deriving DecidableEq, Repr

/-- SpaceInvaders._spawn_enemies as a state transformer: clear the enemy
collection, reset the direction to +1, lay out the grid for the current
level. -/
def GameState.spawn_enemies (s : GameState) : GameState :=
  { s with enemies := enemyGrid s.level, enemy_direction := 1 }

/-- SpaceInvaders.__init__ (simulation fields). -/
def GameState.init : GameState :=
  GameState.spawn_enemies
    { player := Player.init, bullets := [], enemies := [], enemy_direction := 1,
      level := 1, score := 0, running := true }

/-- Decoded input intents for one tick, as read in _handle_events. -/
structure Input where
  move_left : Bool
  move_right : Bool
  fire : Bool
  quit : Bool
deriving DecidableEq, Repr

/-- SpaceInvaders._handle_events: quit intent stops the loop flag; movement
keys combine to a signed dx (move only called when dx is nonzero); holding
fire attempts a shot and appends the produced bullet. -/
def GameState.handle_events (s : GameState) (inp : Input) : GameState :=
  let running := if inp.quit then false else s.running
  let dx : Int := (if inp.move_right then 1 else 0) - (if inp.move_left then 1 else 0)
  let p1 := if dx = 0 then s.player else s.player.move dx
  let r := if inp.fire then p1.shoot else (none, p1)
  { s with running := running, player := r.2, bullets := s.bullets ++ r.1.toList }

/-- Per-tick bullet phase of _update: update every bullet, then keep only the
active ones. -/
def bulletFilterPhase (bs : List Bullet) : List Bullet :=
  (bs.map Bullet.update).filter (fun b => b.active)

/-- Leftmost enemy edge, with the empty-collection default 0 of _update. -/
def leftmostEdge (es : List Enemy) : Int :=
  ((es.map (fun e => e.rect.left)).min?).getD 0

/-- Rightmost enemy edge, with the empty-collection default WIDTH of _update. -/
def rightmostEdge (es : List Enemy) : Int :=
  ((es.map (fun e => e.rect.right)).max?).getD WIDTH

/-- The direction after the edge test of _update (assigned before the
horizontal move of the same tick). -/
def newDirection (es : List Enemy) (dir : Int) : Int :=
  if leftmostEdge es ≤ 10 ∧ dir < 0 then 1
  else if rightmostEdge es ≥ WIDTH - 10 ∧ dir > 0 then -1
  else dir

/-- The move_down flag of _update. -/
def moveDown (es : List Enemy) (dir : Int) : Bool :=
  decide (leftmostEdge es ≤ 10 ∧ dir < 0) ||
    decide (¬(leftmostEdge es ≤ 10 ∧ dir < 0) ∧ rightmostEdge es ≥ WIDTH - 10 ∧ dir > 0)

/-- Horizontal displacement of one enemy by speed times direction. -/
def Enemy.moveX (d : Int) (e : Enemy) : Enemy :=
  { e with rect := { e.rect with x := e.rect.x + (e.speed : Int) * d } }

/-- Round num / den to the nearest integer, ties to even (IEEE default). -/
def roundHalfEven (num den : Nat) : Nat :=
  let q := num / den
  let r := num % den
  if 2 * r < den then q
  else if 2 * r > den then q + 1
  else if q % 2 = 0 then q else q + 1

/-- Fuel-driven floor of the base-two logarithm (structurally recursive so
that concrete values reduce in the kernel). -/
def log2Aux : Nat → Nat → Nat
  | 0, _ => 0
  | fuel + 1, n => if 2 ≤ n then log2Aux fuel (n / 2) + 1 else 0

/-- Floor of the base-two logarithm. -/
def floorLog2 (n : Nat) : Nat := log2Aux n n

/-- Numerator of the IEEE-754 double nearest to 1.1: the literal 1.1 of
ENEMY_DROP_SPEED_MULTIPLIER denotes 4953959590107546 * 2 ^ (-52), which is
strictly above 11 / 10. -/
def FL_1_1_NUM : Nat := 4953959590107546

/-- The post-drop speed math.ceil(speed * 1.1) of _update with exact IEEE-754
double semantics: the exact product s * fl(1.1) is rounded to the nearest
representable double (53-bit significand, ties to even) and the exact ceiling
of that double is taken.  This agrees with the Python expression for every
speed below 2 ^ 53, hence for every speed the game reaches.  Note the result
differs from the rational ceiling of 11 * s / 10 at, for example, s = 50
(where the float product is 55.000000000000007 and the ceiling 56). -/
def dropSpeed (s : Nat) : Nat :=
  let x := s * FL_1_1_NUM
  let k := floorLog2 x
  let m := roundHalfEven x (2 ^ (k - 52))
  if k ≥ 104 then m * 2 ^ (k - 104)
  else (m * 2 ^ k + 2 ^ 104 - 1) / 2 ^ 104

/-- The drop applied to one enemy: step down and scale the speed up. -/
def Enemy.drop (e : Enemy) : Enemy :=
  { e with rect := { e.rect with y := e.rect.y + ENEMY_VERTICAL_STEP },
           speed := dropSpeed e.speed }

/-- Formation advance of _update (lines 153-168): edge test and direction
reassignment first, then the horizontal move with the (possibly already
flipped) stored direction, then the vertical step and speed scaling when
move_down was set.  Returns the moved enemies and the stored direction. -/
def advanceFormation (es : List Enemy) (dir : Int) : List Enemy × Int :=
  let d := newDirection es dir
  let es1 := es.map (Enemy.moveX d)
  (if moveDown es dir then es1.map Enemy.drop else es1, d)

/-- Phase 1 of _update: player cooldown decay and the bullet move-and-filter
step. -/
def GameState.prePhase (s : GameState) : GameState :=
  { s with player := s.player.update, bullets := bulletFilterPhase s.bullets }

/-- Phase 2 of _update: when the enemy collection is empty, increment the
level and respawn (the fresh grid uses the incremented level). -/
def GameState.spawnPhase (s : GameState) : GameState :=
  if s.enemies.isEmpty then GameState.spawn_enemies { s with level := s.level + 1 }
  else s

/-- Phase 3 of _update: the formation advance. -/
def GameState.advanceStep (s : GameState) : GameState :=
  { s with enemies := (advanceFormation s.enemies s.enemy_direction).1,
           enemy_direction := (advanceFormation s.enemies s.enemy_direction).2 }

/-- One pass of the bullet-enemy loop of _handle_collisions: bullets in
order; for each bullet the first colliding enemy in the current collection is
removed (list.remove removes the first equal element, which is that enemy),
the score grows by 10, the bullet is deactivated and the inner loop breaks.
Returns the bullets (in place, possibly deactivated), the surviving enemies
and the new score. -/
def bulletPass : List Bullet → List Enemy → Nat → List Bullet × List Enemy × Nat
  | [], es, sc => ([], es, sc)
  | b :: rest, es, sc =>
    match es.find? (fun e => b.rect.colliderect e.rect) with
    | some e =>
      let r := bulletPass rest (es.erase e) (sc + 10)
      ({ b with active := false } :: r.1, r.2)
    | none =>
      let r := bulletPass rest es sc
      (b :: r.1, r.2)

/-- Enemy-player loop condition of _handle_collisions: some enemy overlaps
the player or has its bottom at or below the danger line HEIGHT - 80.  The
loop breaks at the first such enemy, so at most one life is lost per tick. -/
def enemyThreat (p : Player) (es : List Enemy) : Bool :=
  es.any (fun e => e.rect.colliderect p.rect || decide (e.rect.bottom ≥ HEIGHT - 80))

/-- SpaceInvaders._lose_life: decrement lives; at zero or below, game over
(the blocking message screen is host boundary; the loop flag ends false).
Otherwise recenter the player, reset the cooldown grace, clear the bullets
and respawn the current wave. -/
def GameState.lose_life (s : GameState) : GameState :=
  let p1 : Player := { s.player with lives := s.player.lives - 1 }
  if p1.lives ≤ 0 then
    { s with player := p1, running := false }
  else
    let r2 : Rect := { p1.rect with x := WIDTH / 2 - p1.rect.w / 2 }
    let p2 : Player := { p1 with rect := r2, cooldown := FPS / 2 }
    GameState.spawn_enemies { s with player := p2, bullets := [] }

/-- SpaceInvaders._handle_collisions. -/
def GameState.handle_collisions (s : GameState) : GameState :=
  let r := bulletPass s.bullets s.enemies s.score
  let s1 : GameState := { s with bullets := r.1, enemies := r.2.1, score := r.2.2 }
  if enemyThreat s1.player s1.enemies then s1.lose_life else s1

/-- SpaceInvaders._update: player and bullet phase, wave respawn on empty,
formation advance, collision resolution — in that fixed order. -/
def GameState.update (s : GameState) : GameState :=
  GameState.handle_collisions (GameState.advanceStep (GameState.spawnPhase (GameState.prePhase s)))

/-- One iteration of the run loop: while running, handle events then update
(drawing is host boundary).  A non-running state takes no further ticks. -/
def GameState.tick (s : GameState) (inp : Input) : GameState :=
  if s.running then (s.handle_events inp).update else s

/-- States reachable from the initial game state by any input sequence. -/
inductive Reachable : GameState → Prop
  | init : Reachable GameState.init
  | step (s : GameState) (inp : Input) : Reachable s → Reachable (s.tick inp)

end SpaceInvaders

/-!
Generic facts about the edge computations and the spawned grid.
-/

namespace SpaceInvaders

lemma leftmostEdge_mem {es : List Enemy} (h : es ≠ []) :
    leftmostEdge es ∈ es.map (fun e => e.rect.left) := by
  unfold leftmostEdge
  have hne : es.map (fun e => e.rect.left) ≠ [] := by simpa using h
  obtain ⟨a, ha⟩ := Option.isSome_iff_exists.1 (by
    rcases List.exists_mem_of_ne_nil _ hne with ⟨x, hx⟩
    exact List.isSome_min?_of_mem hx)
  rw [ha]
  exact List.min?_mem (fun a b => min_choice a b) ha

lemma leftmostEdge_le {es : List Enemy} {e : Enemy} (h : e ∈ es) :
    leftmostEdge es ≤ e.rect.left := by
  unfold leftmostEdge
  have hx : e.rect.left ∈ es.map (fun x => x.rect.left) := List.mem_map_of_mem _ h
  obtain ⟨a, ha⟩ := Option.isSome_iff_exists.1 (List.isSome_min?_of_mem hx)
  rw [ha]
  exact ((List.le_min?_iff (fun a b c => le_min_iff) ha).1 le_rfl) _ hx

lemma rightmostEdge_mem {es : List Enemy} (h : es ≠ []) :
    rightmostEdge es ∈ es.map (fun e => e.rect.right) := by
  unfold rightmostEdge
  have hne : es.map (fun e => e.rect.right) ≠ [] := by simpa using h
  obtain ⟨a, ha⟩ := Option.isSome_iff_exists.1 (by
    rcases List.exists_mem_of_ne_nil _ hne with ⟨x, hx⟩
    exact List.isSome_max?_of_mem hx)
  rw [ha]
  exact List.max?_mem (fun a b => max_choice a b) ha

lemma le_rightmostEdge {es : List Enemy} {e : Enemy} (h : e ∈ es) :
    e.rect.right ≤ rightmostEdge es := by
  unfold rightmostEdge
  have hx : e.rect.right ∈ es.map (fun x => x.rect.right) := List.mem_map_of_mem _ h
  obtain ⟨a, ha⟩ := Option.isSome_iff_exists.1 (List.isSome_max?_of_mem hx)
  rw [ha]
  exact ((List.max?_le_iff (fun a b c => max_le_iff) ha).1 le_rfl) _ hx

lemma mem_enemyGrid {L : Nat} {e : Enemy} :
    e ∈ enemyGrid L ↔ ∃ row col, row < ENEMY_ROWS ∧ col < ENEMY_COLS ∧ e = enemyAt L row col := by
  simp [enemyGrid, List.mem_flatMap, List.mem_map, List.mem_range, eq_comm]

lemma enemyGrid_speed {L : Nat} {e : Enemy} (h : e ∈ enemyGrid L) :
    e.speed = ENEMY_SPEED + L - 1 := by
  rcases mem_enemyGrid.1 h with ⟨row, col, hr, hc, rfl⟩
  rfl

lemma enemyGrid_bottom_le {L : Nat} {e : Enemy} (h : e ∈ enemyGrid L) :
    e.rect.bottom ≤ 230 ∧ e.rect.h = 30 := by
  rcases mem_enemyGrid.1 h with ⟨row, col, hr, hc, rfl⟩
  have hr4 : row < 4 := hr
  constructor
  · show ENEMY_VERTICAL_PADDING + (row : Int) * ENEMY_VERTICAL_SPACING + ENEMY_HEIGHT ≤ 230
    have h3 : (row : Int) ≤ 3 := by exact_mod_cast Nat.le_of_lt_succ hr4
    simp only [ENEMY_VERTICAL_PADDING, ENEMY_VERTICAL_SPACING, ENEMY_HEIGHT]
    omega
  · rfl

lemma enemyGrid_left_bounds {L : Nat} {e : Enemy} (h : e ∈ enemyGrid L) :
    170 ≤ e.rect.left ∧ e.rect.right ≤ 630 := by
  rcases mem_enemyGrid.1 h with ⟨row, col, hr, hc, rfl⟩
  have hc8 : col < 8 := hc
  have h7 : (col : Int) ≤ 7 := by exact_mod_cast Nat.le_of_lt_succ hc8
  have h0 : (0 : Int) ≤ (col : Int) := Int.natCast_nonneg col
  have hs : enemyStartX = 170 := by decide
  constructor
  · show 170 ≤ enemyStartX + (col : Int) * ENEMY_HORIZONTAL_SPACING
    rw [hs]; simp only [ENEMY_HORIZONTAL_SPACING]; omega
  · show enemyStartX + (col : Int) * ENEMY_HORIZONTAL_SPACING + ENEMY_WIDTH ≤ 630
    rw [hs]; simp only [ENEMY_HORIZONTAL_SPACING, ENEMY_WIDTH]; omega

lemma enemyGrid_length (L : Nat) : (enemyGrid L).length = ENEMY_ROWS * ENEMY_COLS := by
  simp [enemyGrid, List.length_flatMap]
  rfl

lemma enemyGrid_ne_nil (L : Nat) : enemyGrid L ≠ [] := by
  intro h
  have h2 := enemyGrid_length L
  rw [h] at h2
  simp [ENEMY_ROWS, ENEMY_COLS] at h2

lemma enemyAt_mem_enemyGrid {L row col : Nat} (hr : row < ENEMY_ROWS) (hc : col < ENEMY_COLS) :
    enemyAt L row col ∈ enemyGrid L :=
  mem_enemyGrid.2 ⟨row, col, hr, hc, rfl⟩

lemma leftmostEdge_enemyGrid (L : Nat) : leftmostEdge (enemyGrid L) = 170 := by
  have hmem := leftmostEdge_mem (enemyGrid_ne_nil L)
  rcases List.mem_map.1 hmem with ⟨e, he, heq⟩
  have h1 := (enemyGrid_left_bounds he).1
  have h00 : enemyAt L 0 0 ∈ enemyGrid L := enemyAt_mem_enemyGrid (by decide) (by decide)
  have h2 := leftmostEdge_le h00
  have h170 : (enemyAt L 0 0).rect.left = 170 := rfl
  omega

lemma rightmostEdge_enemyGrid (L : Nat) : rightmostEdge (enemyGrid L) = 630 := by
  have hmem := rightmostEdge_mem (enemyGrid_ne_nil L)
  rcases List.mem_map.1 hmem with ⟨e, he, heq⟩
  have h1 := (enemyGrid_left_bounds he).2
  have h07 : enemyAt L 0 7 ∈ enemyGrid L := enemyAt_mem_enemyGrid (by decide) (by decide)
  have h2 := le_rightmostEdge h07
  have h630 : (enemyAt L 0 7).rect.right = 630 := rfl
  omega

end SpaceInvaders

namespace SpaceInvaders

lemma log2Aux_eq (fuel n : Nat) (h : n ≤ fuel) : log2Aux fuel n = Nat.log2 n := by
  induction fuel generalizing n with
  | zero =>
    have hn : n = 0 := by omega
    subst hn
    simp [log2Aux, Nat.log2]
  | succ fuel ih =>
    rw [log2Aux, Nat.log2]
    by_cases h2 : 2 ≤ n
    · rw [if_pos h2, if_pos h2, ih (n / 2) (by omega)]
    · rw [if_neg h2, if_neg h2]

lemma floorLog2_le_self (n : Nat) (h : n ≠ 0) : 2 ^ floorLog2 n ≤ n := by
  rw [floorLog2, log2Aux_eq n n le_rfl, Nat.log2_eq_log_two]
  exact Nat.pow_log_le_self 2 h

lemma lt_floorLog2_succ (n : Nat) : n < 2 ^ (floorLog2 n + 1) := by
  rw [floorLog2, log2Aux_eq n n le_rfl, Nat.log2_eq_log_two]
  exact Nat.lt_pow_succ_log_self (by omega) n

lemma roundHalfEven_lower (x d : Nat) (hd : 0 < d) : 2 * x ≤ 2 * roundHalfEven x d * d + d := by
  simp only [roundHalfEven]
  have hdm : d * (x / d) + x % d = x := Nat.div_add_mod x d
  have hr : x % d < d := Nat.mod_lt _ hd
  set q := x / d
  set r := x % d
  split
  next hlt => nlinarith [hdm, hr, hlt]
  next hge =>
    split
    next hgt => nlinarith [hdm, hr]
    next hngt =>
      have heq : 2 * r = d := by omega
      split
      · nlinarith [hdm, heq]
      · nlinarith [hdm, heq]

/-- C9 core inequality: the float-exact post-drop speed strictly exceeds the
pre-drop speed. -/
lemma dropSpeed_gt (s : Nat) (hs : 1 ≤ s) : s < dropSpeed s := by
  simp only [dropSpeed]
  set x := s * FL_1_1_NUM with hx
  have hxpos : x ≠ 0 := by
    simp [hx, FL_1_1_NUM]
    omega
  set k := floorLog2 x with hk
  have h2k : 2 ^ k ≤ x := floorLog2_le_self x hxpos
  have hxlt : x < 2 ^ (k + 1) := lt_floorLog2_succ x
  have hx52 : 2 ^ 52 < x := by
    have h1 : (2 : Nat) ^ 52 < FL_1_1_NUM := by norm_num [FL_1_1_NUM]
    calc (2 : Nat) ^ 52 < FL_1_1_NUM := h1
    _ ≤ s * FL_1_1_NUM := Nat.le_mul_of_pos_left _ hs
  have hk52 : 52 ≤ k := by
    by_contra hcon
    have hk51 : k + 1 ≤ 52 := by omega
    have : (2 : Nat) ^ (k + 1) ≤ 2 ^ 52 := Nat.pow_le_pow_right (by omega) hk51
    omega
  set d := (2 : Nat) ^ (k - 52) with hd
  have hdpos : 0 < d := Nat.pos_pow_of_pos _ (by omega)
  set m := roundHalfEven x d with hm
  have hlow : 2 * x ≤ 2 * m * d + d := roundHalfEven_lower x d hdpos
  have hdk : d * 2 ^ 52 = 2 ^ k := by
    rw [hd, ← pow_add]
    congr 1
    omega
  have hd2s : d * 2 ^ 52 ≤ x := by rw [hdk]; exact h2k
  have hcore : s * 2 ^ 52 < m * d := by
    have hlow2 : 2 * x ≤ 2 * (m * d) + d := by
      calc 2 * x ≤ 2 * m * d + d := hlow
      _ = 2 * (m * d) + d := by ring
    have hxN : x = s * 4953959590107546 := hx
    have hd52 : d * 4503599627370496 ≤ x := by
      have : (4503599627370496 : Nat) = 2 ^ 52 := by norm_num
      rw [this]
      exact hd2s
    have hgoal : s * 4503599627370496 < m * d := by omega
    exact hgoal
  split
  next hbig =>
    have hkk : (2 : Nat) ^ k = 2 ^ (k - 104) * 2 ^ 104 := by
      rw [← pow_add]
      congr 1
      omega
    have h104 : (2 : Nat) ^ 104 = 2 ^ 52 * 2 ^ 52 := by norm_num
    have hstep : s * 2 ^ 104 < m * 2 ^ (k - 104) * 2 ^ 104 := by
      have h1 : m * 2 ^ (k - 104) * 2 ^ 104 = m * 2 ^ k := by rw [hkk]; ring
      have h2 : m * 2 ^ k = m * d * 2 ^ 52 := by rw [← hdk]; ring
      have h3 : s * 2 ^ 104 = s * 2 ^ 52 * 2 ^ 52 := by rw [h104]; ring
      rw [h1, h2, h3]
      exact (Nat.mul_lt_mul_right (Nat.pos_pow_of_pos _ (by omega))).2 hcore
    exact (Nat.mul_lt_mul_right (Nat.pos_pow_of_pos 104 (by omega))).1 hstep
  next hsmall =>
    have h104pos : 0 < (2 : Nat) ^ 104 := Nat.pos_pow_of_pos _ (by omega)
    have hmk : m * 2 ^ k = m * d * 2 ^ 52 := by rw [← hdk]; ring
    have hfin : s + 1 ≤ (m * 2 ^ k + 2 ^ 104 - 1) / 2 ^ 104 := by
      rw [Nat.le_div_iff_mul_le h104pos, hmk]
      have e52 : (2 : Nat) ^ 52 = 4503599627370496 := by norm_num
      have e104 : (2 : Nat) ^ 104 = 20282409603651670423947251286016 := by norm_num
      rw [e52] at hcore
      rw [e52, e104]
      omega
    omega

end SpaceInvaders

namespace SpaceInvaders

/-- C6: a life-loss event with lives > 1 clears the bullet collection,
recenters the player at WIDTH / 2, resets the cooldown to the grace constant
FPS / 2, respawns the wave at the unchanged current level with direction +1,
and leaves score and level unchanged. -/
theorem lose_life_with_spare_lives (s : GameState) (h : 1 < s.player.lives) :
    (s.lose_life).bullets = [] ∧
    (s.lose_life).player.rect.centerx = WIDTH / 2 ∧
    (s.lose_life).player.cooldown = FPS / 2 ∧
    (s.lose_life).enemies = enemyGrid s.level ∧
    (s.lose_life).enemy_direction = 1 ∧
    (s.lose_life).score = s.score ∧
    (s.lose_life).level = s.level ∧
    (s.lose_life).player.lives = s.player.lives - 1 := by
  have hcond : ¬ (s.player.lives - 1 ≤ 0) := by omega
  have heq : s.lose_life =
      { s with
        player := { rect := { s.player.rect with x := WIDTH / 2 - s.player.rect.w / 2 },
                    lives := s.player.lives - 1, cooldown := FPS / 2 },
        bullets := [], enemies := enemyGrid s.level, enemy_direction := 1 } := by
    simp only [GameState.lose_life]
    rw [if_neg hcond]
    rfl
  rw [heq]
  refine ⟨rfl, ?_, rfl, rfl, rfl, rfl, rfl, rfl⟩
  show WIDTH / 2 - s.player.rect.w / 2 + s.player.rect.w / 2 = WIDTH / 2
  omega

theorem lose_life_witness :
    1 < GameState.init.player.lives ∧ (GameState.init.lose_life).player.cooldown = FPS / 2 :=
  ⟨by decide, (lose_life_with_spare_lives GameState.init (by decide)).2.2.1⟩

/-- C7: wave spawn clears the collection to exactly the grid, resets the
direction to +1, lays out ENEMY_ROWS x ENEMY_COLS enemies with the fixed
spacing, left edge max(padding, centered), all with speed
ENEMY_SPEED + (L - 1). -/
theorem wave_spawn_spec (s : GameState) (L : Nat) (hL : 1 ≤ L) :
    (s.spawn_enemies).enemies = enemyGrid s.level ∧
    (s.spawn_enemies).enemy_direction = 1 ∧
    (enemyGrid L).length = ENEMY_ROWS * ENEMY_COLS ∧
    leftmostEdge (enemyGrid L) = max ENEMY_HORIZONTAL_PADDING ((WIDTH - enemyTotalWidth) / 2) ∧
    (∀ e ∈ enemyGrid L, e.speed = ENEMY_SPEED + L - 1) ∧
    (∀ row col : Nat, row < ENEMY_ROWS → col < ENEMY_COLS → enemyAt L row col ∈ enemyGrid L) ∧
    (∀ e ∈ enemyGrid L, ∃ row col, row < ENEMY_ROWS ∧ col < ENEMY_COLS ∧ e = enemyAt L row col) := by
  refine ⟨rfl, rfl, enemyGrid_length L, ?_, fun e he => enemyGrid_speed he,
    fun row col hr hc => enemyAt_mem_enemyGrid hr hc, fun e he => mem_enemyGrid.1 he⟩
  rw [leftmostEdge_enemyGrid]
  decide

theorem wave_spawn_witness :
    (1 : Nat) ≤ 3 ∧ (enemyGrid 3).length = ENEMY_ROWS * ENEMY_COLS :=
  ⟨by decide, (wave_spawn_spec GameState.init 3 (by decide)).2.2.1⟩

/-- C8: shoot succeeds exactly when cooldown is zero; success resets the
cooldown to FPS / 4 and yields an active bullet horizontally centered on the
player and starting above the player's top, and an immediate second shot is
refused; refusal returns none and leaves the player unchanged. -/
theorem shoot_spec (p : Player) :
    ((p.shoot).1.isSome ↔ p.cooldown = 0) ∧
    (p.cooldown = 0 →
      (p.shoot).2 = { p with cooldown := FPS / 4 } ∧
      ∃ b, (p.shoot).1 = some b ∧ b.rect.centerx = p.rect.centerx ∧
        b.rect.top < p.rect.top ∧ b.active = true ∧ ((p.shoot).2.shoot).1 = none) ∧
    (p.cooldown ≠ 0 → p.shoot = (none, p)) := by
  by_cases hc : p.cooldown = 0
  · refine ⟨by simp [Player.shoot, hc], fun _ => ⟨by simp [Player.shoot, hc], ?_⟩,
      fun hn => absurd hc hn⟩
    refine ⟨{ rect := { x := p.rect.centerx - 3, y := p.rect.top - 10, w := 6, h := 12 },
              speed := BULLET_SPEED, active := true }, by simp [Player.shoot, hc], ?_, ?_, rfl, ?_⟩
    · show p.rect.centerx - 3 + 6 / 2 = p.rect.centerx
      omega
    · show p.rect.top - 10 < p.rect.top
      omega
    · simp [Player.shoot, hc, FPS]
  · exact ⟨by simp [Player.shoot, hc], fun h0 => absurd h0 hc, fun _ => by simp [Player.shoot, hc]⟩

theorem shoot_witness :
    Player.init.cooldown = 0 ∧ ((Player.init.shoot).1.isSome ↔ Player.init.cooldown = 0) :=
  ⟨rfl, (shoot_spec Player.init).1⟩

/-- C9: the post-drop speed strictly exceeds the pre-drop speed for every
speed at least 1, and each later wave starts exactly 1 faster than the
previous one. -/
theorem speed_escalation :
    (∀ s : Nat, 1 ≤ s → s < dropSpeed s) ∧
    (∀ L : Nat, 1 ≤ L → ∀ e ∈ enemyGrid (L + 1), ∀ e2 ∈ enemyGrid L, e.speed = e2.speed + 1) := by
  refine ⟨dropSpeed_gt, fun L hL e he e2 he2 => ?_⟩
  rw [enemyGrid_speed he, enemyGrid_speed he2]
  simp only [ENEMY_SPEED]
  omega

theorem speed_escalation_witness : (1 : Nat) ≤ 4 ∧ 4 < dropSpeed 4 :=
  ⟨by decide, speed_escalation.1 4 (by decide)⟩

/-- C10: the enemy collection reaching the formation-advance step of a tick
is never empty (the respawn phase runs just before it), so the edge folds
always return an actual enemy edge and the empty-collection defaults 0 and
WIDTH are never used. -/
theorem advance_sees_nonempty (s : GameState) :
    ((s.prePhase).spawnPhase).enemies ≠ [] ∧
    (∀ es : List Enemy, es ≠ [] →
      leftmostEdge es ∈ es.map (fun e => e.rect.left) ∧
      rightmostEdge es ∈ es.map (fun e => e.rect.right)) := by
  constructor
  · show (GameState.spawnPhase _).enemies ≠ []
    unfold GameState.spawnPhase
    by_cases he : (s.prePhase).enemies.isEmpty
    · rw [if_pos he]
      exact enemyGrid_ne_nil _
    · rw [if_neg he]
      simpa [List.isEmpty_iff] using he
  · exact fun es hes => ⟨leftmostEdge_mem hes, rightmostEdge_mem hes⟩

theorem advance_sees_nonempty_witness :
    ((GameState.init.prePhase).spawnPhase).enemies ≠ [] ∧
    leftmostEdge (enemyGrid 1) ∈ (enemyGrid 1).map (fun e => e.rect.left) :=
  ⟨(advance_sees_nonempty GameState.init).1,
    ((advance_sees_nonempty GameState.init).2 (enemyGrid 1) (enemyGrid_ne_nil 1)).1⟩

end SpaceInvaders

namespace SpaceInvaders

lemma find?_first_match {es : List Enemy} {p : Enemy → Bool} {e : Enemy}
    (h : es.find? p = some e) :
    p e = true ∧ ∃ l1 l2, es = l1 ++ e :: l2 ∧ ∀ x ∈ l1, p x = false := by
  induction es with
  | nil => simp at h
  | cons a tl ih =>
    rw [List.find?_cons] at h
    by_cases hpa : p a = true
    · rw [hpa] at h
      simp only [Option.some.injEq] at h
      obtain rfl : a = e := h
      exact ⟨hpa, [], tl, rfl, by simp⟩
    · rw [Bool.eq_false_iff.2 hpa] at h
      simp only at h
      obtain ⟨hpe, l1, l2, rfl, hl1⟩ := ih h
      refine ⟨hpe, a :: l1, l2, rfl, ?_⟩
      intro x hx
      rcases List.mem_cons.1 hx with rfl | hx2
      · simpa using hpa
      · exact hl1 x hx2

lemma bulletPass_score_eq (bs : List Bullet) (es : List Enemy) (sc : Nat) :
    (bulletPass bs es sc).2.2 + 10 * (bulletPass bs es sc).2.1.length = sc + 10 * es.length := by
  induction bs generalizing es sc with
  | nil => rfl
  | cons b rest ih =>
    rw [bulletPass]
    cases hfind : es.find? (fun e => b.rect.colliderect e.rect) with
    | some e =>
      simp only
      have hmem : e ∈ es := List.mem_of_find?_eq_some hfind
      have hlen : (es.erase e).length = es.length - 1 := List.length_erase_of_mem hmem
      have hpos : 1 ≤ es.length := List.length_pos_of_mem hmem
      have := ih (es.erase e) (sc + 10)
      rw [hlen] at this
      omega
    | none =>
      simp only
      exact ih es sc

lemma bulletPass_enemies_subset (bs : List Bullet) (es : List Enemy) (sc : Nat) :
    (bulletPass bs es sc).2.1 ⊆ es := by
  induction bs generalizing es sc with
  | nil => exact fun a ha => ha
  | cons b rest ih =>
    rw [bulletPass]
    cases hfind : es.find? (fun e => b.rect.colliderect e.rect) with
    | some e =>
      simp only
      exact fun a ha => List.erase_subset _ _ (ih (es.erase e) (sc + 10) ha)
    | none =>
      simp only
      exact ih es sc

lemma bulletPass_enemies_length_le (bs : List Bullet) (es : List Enemy) (sc : Nat) :
    (bulletPass bs es sc).2.1.length ≤ es.length := by
  induction bs generalizing es sc with
  | nil => exact le_rfl
  | cons b rest ih =>
    rw [bulletPass]
    cases hfind : es.find? (fun e => b.rect.colliderect e.rect) with
    | some e =>
      simp only
      have h1 := ih (es.erase e) (sc + 10)
      have h2 : (es.erase e).length ≤ es.length := List.length_erase_le e es
      omega
    | none =>
      simp only
      exact ih es sc

lemma bulletPass_removed_le (bs : List Bullet) (es : List Enemy) (sc : Nat) :
    es.length ≤ (bulletPass bs es sc).2.1.length + bs.length := by
  induction bs generalizing es sc with
  | nil => simp [bulletPass]
  | cons b rest ih =>
    rw [bulletPass]
    cases hfind : es.find? (fun e => b.rect.colliderect e.rect) with
    | some e =>
      simp only
      have hmem : e ∈ es := List.mem_of_find?_eq_some hfind
      have hlen : (es.erase e).length = es.length - 1 := List.length_erase_of_mem hmem
      have hpos : 1 ≤ es.length := List.length_pos_of_mem hmem
      have := ih (es.erase e) (sc + 10)
      simp only [List.length_cons]
      omega
    | none =>
      simp only
      have := ih es sc
      simp only [List.length_cons]
      omega

lemma bulletPass_score_mono (bs : List Bullet) (es : List Enemy) (sc : Nat) :
    sc ≤ (bulletPass bs es sc).2.2 := by
  induction bs generalizing es sc with
  | nil => exact le_rfl
  | cons b rest ih =>
    rw [bulletPass]
    cases hfind : es.find? (fun e => b.rect.colliderect e.rect) with
    | some e =>
      simp only
      have := ih (es.erase e) (sc + 10)
      omega
    | none =>
      simp only
      exact ih es sc

lemma bulletPass_bullets_length (bs : List Bullet) (es : List Enemy) (sc : Nat) :
    (bulletPass bs es sc).1.length = bs.length := by
  induction bs generalizing es sc with
  | nil => rfl
  | cons b rest ih =>
    rw [bulletPass]
    cases hfind : es.find? (fun e => b.rect.colliderect e.rect) with
    | some e =>
      simp only [List.length_cons]
      rw [ih (es.erase e) (sc + 10)]
    | none =>
      simp only [List.length_cons]
      rw [ih es sc]

lemma bulletPass_bullets_shape (bs : List Bullet) (es : List Enemy) (sc : Nat) :
    ∀ b2 ∈ (bulletPass bs es sc).1, b2 ∈ bs ∨ ∃ b0 ∈ bs, b2 = { b0 with active := false } := by
  induction bs generalizing es sc with
  | nil => simp [bulletPass]
  | cons b rest ih =>
    rw [bulletPass]
    cases hfind : es.find? (fun e => b.rect.colliderect e.rect) with
    | some e =>
      simp only
      intro b2 hb2
      rcases List.mem_cons.1 hb2 with rfl | hb2r
      · exact Or.inr ⟨b, List.mem_cons_self b rest, rfl⟩
      · rcases ih (es.erase e) (sc + 10) b2 hb2r with h | ⟨b0, hb0, heq⟩
        · exact Or.inl (List.mem_cons_of_mem b h)
        · exact Or.inr ⟨b0, List.mem_cons_of_mem b hb0, heq⟩
    | none =>
      simp only
      intro b2 hb2
      rcases List.mem_cons.1 hb2 with rfl | hb2r
      · exact Or.inl (List.mem_cons_self b2 rest)
      · rcases ih es sc b2 hb2r with h | ⟨b0, hb0, heq⟩
        · exact Or.inl (List.mem_cons_of_mem b h)
        · exact Or.inr ⟨b0, List.mem_cons_of_mem b hb0, heq⟩

lemma bulletPass_inactive_count (bs : List Bullet) (es : List Enemy) (sc : Nat)
    (h : ∀ b ∈ bs, b.active = true) :
    ((bulletPass bs es sc).1.countP (fun b => !b.active)) + (bulletPass bs es sc).2.1.length
      = es.length := by
  induction bs generalizing es sc with
  | nil => simp [bulletPass]
  | cons b rest ih =>
    rw [bulletPass]
    cases hfind : es.find? (fun e => b.rect.colliderect e.rect) with
    | some e =>
      simp only
      have hmem : e ∈ es := List.mem_of_find?_eq_some hfind
      have hlen : (es.erase e).length = es.length - 1 := List.length_erase_of_mem hmem
      have hpos : 1 ≤ es.length := List.length_pos_of_mem hmem
      have hrest := ih (es.erase e) (sc + 10) (fun b2 hb2 => h b2 (List.mem_cons_of_mem b hb2))
      rw [List.countP_cons]
      simp only [Bool.not_false, if_pos]
      omega
    | none =>
      simp only
      have hb : b.active = true := h b (List.mem_cons_self b rest)
      have hrest := ih es sc (fun b2 hb2 => h b2 (List.mem_cons_of_mem b hb2))
      rw [List.countP_cons, hb]
      simp
      omega

end SpaceInvaders

namespace SpaceInvaders

lemma Player.move_lives (p : Player) (dx : Int) : (p.move dx).lives = p.lives := rfl

lemma Player.shoot_lives (p : Player) : ((p.shoot).2).lives = p.lives := by
  unfold Player.shoot
  split <;> rfl

lemma Player.update_lives (p : Player) : (p.update).lives = p.lives := by
  unfold Player.update
  split <;> rfl

lemma Player.update_rect (p : Player) : (p.update).rect = p.rect := by
  unfold Player.update
  split <;> rfl

lemma handle_events_lives (s : GameState) (inp : Input) :
    (s.handle_events inp).player.lives = s.player.lives := by
  by_cases hf : inp.fire <;>
    by_cases hdx : ((if inp.move_right then (1 : Int) else 0) -
      (if inp.move_left then 1 else 0)) = 0 <;>
    simp [GameState.handle_events, hf, hdx, Player.shoot_lives, Player.move_lives]

lemma handle_events_score (s : GameState) (inp : Input) :
    (s.handle_events inp).score = s.score := rfl

lemma handle_events_running (s : GameState) (inp : Input) :
    (s.handle_events inp).running = if inp.quit then false else s.running := rfl

lemma spawnPhase_fields (s : GameState) :
    (s.spawnPhase).running = s.running ∧ (s.spawnPhase).player = s.player ∧
    (s.spawnPhase).score = s.score ∧ (s.spawnPhase).bullets = s.bullets := by
  unfold GameState.spawnPhase
  split <;> exact ⟨rfl, rfl, rfl, rfl⟩

lemma lose_life_lives (s : GameState) : (s.lose_life).player.lives = s.player.lives - 1 := by
  simp only [GameState.lose_life]
  split <;> rfl

lemma lose_life_score (s : GameState) : (s.lose_life).score = s.score := by
  simp only [GameState.lose_life]
  split <;> rfl

lemma lose_life_level (s : GameState) : (s.lose_life).level = s.level := by
  simp only [GameState.lose_life]
  split <;> rfl

lemma lose_life_running (s : GameState) :
    (s.lose_life).running = if s.player.lives - 1 ≤ 0 then false else s.running := by
  simp only [GameState.lose_life]
  split <;> rfl

/-- The state after the bullet-enemy loop of _handle_collisions, before the
enemy-player loop. -/
def GameState.postBullets (s : GameState) : GameState :=
  { s with bullets := (bulletPass s.bullets s.enemies s.score).1,
           enemies := (bulletPass s.bullets s.enemies s.score).2.1,
           score := (bulletPass s.bullets s.enemies s.score).2.2 }

lemma handle_collisions_eq (s : GameState) :
    s.handle_collisions =
      (if enemyThreat s.player (bulletPass s.bullets s.enemies s.score).2.1 then
        (s.postBullets).lose_life
      else s.postBullets) := rfl

lemma handle_collisions_lives (s : GameState) :
    ((s.handle_collisions).player.lives = s.player.lives ∧
      (s.handle_collisions).running = s.running ∧
      (s.handle_collisions).score = (bulletPass s.bullets s.enemies s.score).2.2) ∨
    ((s.handle_collisions).player.lives = s.player.lives - 1 ∧
      (s.handle_collisions).score = (bulletPass s.bullets s.enemies s.score).2.2 ∧
      ((s.handle_collisions).running = true → s.running = true ∧ 2 ≤ s.player.lives)) := by
  rw [handle_collisions_eq]
  split
  · right
    refine ⟨lose_life_lives _, lose_life_score _, ?_⟩
    intro hrun
    rw [lose_life_running] at hrun
    dsimp only [GameState.postBullets] at hrun
    by_cases hl : s.player.lives - 1 ≤ 0
    · rw [if_pos hl] at hrun
      exact absurd hrun (by simp)
    · rw [if_neg hl] at hrun
      exact ⟨hrun, by omega⟩
  · exact Or.inl ⟨rfl, rfl, rfl⟩

end SpaceInvaders

namespace SpaceInvaders

lemma update_decomp (s : GameState) :
    s.update = (((s.prePhase).spawnPhase).advanceStep).handle_collisions := rfl

lemma mid_lives (s : GameState) :
    (((s.prePhase).spawnPhase).advanceStep).player.lives = s.player.lives := by
  have h1 : (((s.prePhase).spawnPhase).advanceStep).player = ((s.prePhase).spawnPhase).player := rfl
  rw [h1, (spawnPhase_fields (s.prePhase)).2.1]
  exact Player.update_lives s.player

lemma mid_running (s : GameState) :
    (((s.prePhase).spawnPhase).advanceStep).running = s.running := by
  have h1 : (((s.prePhase).spawnPhase).advanceStep).running = ((s.prePhase).spawnPhase).running := rfl
  rw [h1, (spawnPhase_fields (s.prePhase)).1]
  rfl

lemma mid_score (s : GameState) :
    (((s.prePhase).spawnPhase).advanceStep).score = s.score := by
  have h1 : (((s.prePhase).spawnPhase).advanceStep).score = ((s.prePhase).spawnPhase).score := rfl
  rw [h1, (spawnPhase_fields (s.prePhase)).2.2.1]
  rfl

lemma update_lives_cases (s : GameState) :
    ((s.update).player.lives = s.player.lives ∧ (s.update).running = s.running) ∨
    ((s.update).player.lives = s.player.lives - 1 ∧
      ((s.update).running = true → s.running = true ∧ 2 ≤ s.player.lives)) := by
  rw [update_decomp]
  rcases handle_collisions_lives (((s.prePhase).spawnPhase).advanceStep) with
    ⟨ha, hb, _⟩ | ⟨ha, _, hc⟩
  · left
    rw [ha, hb, mid_lives, mid_running]
    exact ⟨rfl, rfl⟩
  · right
    rw [ha, mid_lives]
    refine ⟨rfl, fun hrun => ?_⟩
    have := hc hrun
    rw [mid_running, mid_lives] at this
    exact this

lemma update_score_mono (s : GameState) : s.score ≤ (s.update).score := by
  rw [update_decomp]
  rcases handle_collisions_lives (((s.prePhase).spawnPhase).advanceStep) with
    ⟨_, _, hsc⟩ | ⟨_, hsc, _⟩ <;>
  · rw [hsc]
    calc s.score = (((s.prePhase).spawnPhase).advanceStep).score := (mid_score s).symm
    _ ≤ _ := bulletPass_score_mono _ _ _

lemma tick_not_running {s : GameState} (h : s.running = false) (inp : Input) :
    s.tick inp = s := by
  unfold GameState.tick
  rw [h]
  simp

lemma tick_lives_cases (s : GameState) (inp : Input) :
    ((s.tick inp).player.lives = s.player.lives ∧
      ((s.tick inp).running = true → s.running = true)) ∨
    ((s.tick inp).player.lives = s.player.lives - 1 ∧ s.running = true ∧
      ((s.tick inp).running = true → 2 ≤ s.player.lives)) := by
  by_cases hr : s.running = true
  · have htick : s.tick inp = (s.handle_events inp).update := by
      unfold GameState.tick
      rw [hr]
      simp
    rw [htick]
    rcases update_lives_cases (s.handle_events inp) with ⟨ha, _⟩ | ⟨ha, hb⟩
    · left
      rw [ha, handle_events_lives]
      exact ⟨rfl, fun _ => hr⟩
    · right
      rw [ha, handle_events_lives]
      refine ⟨rfl, hr, fun hrun => ?_⟩
      have := (hb hrun).2
      rw [handle_events_lives] at this
      exact this
  · have hf : s.running = false := by
      cases h : s.running
      · rfl
      · exact absurd h hr
    rw [tick_not_running hf]
    exact Or.inl ⟨rfl, fun h => h⟩

lemma reachable_lives (s : GameState) (h : Reachable s) :
    0 ≤ s.player.lives ∧ (s.running = true → 1 ≤ s.player.lives) := by
  induction h with
  | init => exact ⟨by decide, fun _ => by decide⟩
  | step s inp hs ih =>
    rcases tick_lives_cases s inp with ⟨ha, hb⟩ | ⟨ha, hr, hb⟩
    · refine ⟨?_, fun h2 => ?_⟩
      · rw [ha]; exact ih.1
      · rw [ha]; exact ih.2 (hb h2)
    · refine ⟨?_, fun h2 => ?_⟩
      · rw [ha]
        have := ih.2 hr
        omega
      · rw [ha]
        have := hb h2
        omega

/-- C4: lives never negative on reachable states, per tick lives drop by at
most one (a single life-loss event even with several simultaneous threats),
a loss at lives = 1 halts the game (running false), and a halted state takes
no further ticks, preserving score and everything else. -/
theorem lives_invariant (s : GameState) (inp inp2 : Input) (h : Reachable s) :
    0 ≤ s.player.lives ∧
    ((s.tick inp).player.lives = s.player.lives ∨
      (s.tick inp).player.lives = s.player.lives - 1) ∧
    (s.player.lives = 1 → (s.tick inp).player.lives ≠ s.player.lives →
      (s.tick inp).running = false) ∧
    ((s.tick inp).running = false → ((s.tick inp).tick inp2) = s.tick inp) := by
  refine ⟨(reachable_lives s h).1, ?_, ?_, ?_⟩
  · rcases tick_lives_cases s inp with ⟨ha, _⟩ | ⟨ha, _, _⟩
    · exact Or.inl ha
    · exact Or.inr ha
  · intro h1 hne
    rcases tick_lives_cases s inp with ⟨ha, _⟩ | ⟨ha, _, hb⟩
    · exact absurd ha hne
    · cases hx : (s.tick inp).running
      · rfl
      · have := hb hx
        omega
  · intro hrf
    exact tick_not_running hrf inp2

theorem lives_invariant_witness :
    Reachable GameState.init ∧ 0 ≤ GameState.init.player.lives :=
  ⟨Reachable.init,
    (lives_invariant GameState.init
      { move_left := false, move_right := false, fire := false, quit := false }
      { move_left := false, move_right := false, fire := false, quit := false }
      Reachable.init).1⟩

end SpaceInvaders

namespace SpaceInvaders

lemma tick_score_mono (st : GameState) (inp : Input) : st.score ≤ (st.tick inp).score := by
  by_cases hr : st.running = true
  · have htick : st.tick inp = (st.handle_events inp).update := by
      unfold GameState.tick
      rw [hr]
      simp
    rw [htick]
    calc st.score = (st.handle_events inp).score := (handle_events_score st inp).symm
    _ ≤ _ := update_score_mono _
  · have hf : st.running = false := by
      cases h : st.running
      · rfl
      · exact absurd h hr
    rw [tick_not_running hf]

/-- C5: bullet-enemy resolution awards exactly 10 points per removed enemy,
removes at most one enemy per bullet (and never adds enemies), deactivates
exactly one bullet per removal when all incoming bullets are active, resolves
each bullet against the first colliding enemy in stable collection order, and
the score never decreases across a full tick. -/
theorem collision_resolution_spec (bs : List Bullet) (es : List Enemy) (sc : Nat)
    (hact : ∀ b ∈ bs, b.active = true) :
    (bulletPass bs es sc).2.2 + 10 * (bulletPass bs es sc).2.1.length = sc + 10 * es.length ∧
    (bulletPass bs es sc).2.1.length ≤ es.length ∧
    es.length ≤ (bulletPass bs es sc).2.1.length + bs.length ∧
    sc ≤ (bulletPass bs es sc).2.2 ∧
    (bulletPass bs es sc).2.1 ⊆ es ∧
    (bulletPass bs es sc).1.length = bs.length ∧
    ((bulletPass bs es sc).1.countP (fun b => !b.active)) + (bulletPass bs es sc).2.1.length
      = es.length ∧
    (∀ (b : Bullet) (e : Enemy), es.find? (fun x => b.rect.colliderect x.rect) = some e →
      b.rect.colliderect e.rect = true ∧
      ∃ l1 l2, es = l1 ++ e :: l2 ∧ ∀ x ∈ l1, b.rect.colliderect x.rect = false) ∧
    (∀ (st : GameState) (inp : Input), st.score ≤ (st.tick inp).score) :=
  ⟨bulletPass_score_eq bs es sc, bulletPass_enemies_length_le bs es sc,
    bulletPass_removed_le bs es sc, bulletPass_score_mono bs es sc,
    bulletPass_enemies_subset bs es sc, bulletPass_bullets_length bs es sc,
    bulletPass_inactive_count bs es sc hact,
    fun b e h => find?_first_match h, tick_score_mono⟩

/-- The bullet list of the C5 witness: one active bullet overlapping the
single enemy of esHitW. -/
def bsActiveW : List Bullet :=
  [{ rect := { x := 200, y := 122, w := 6, h := 12 }, speed := 8, active := true }]

/-- The enemy list of the C5 witness. -/
def esHitW : List Enemy := [{ rect := { x := 181, y := 100, w := 40, h := 30 }, speed := 1 }]

theorem collision_resolution_witness :
    (∀ b ∈ bsActiveW, b.active = true) ∧
    ((bulletPass bsActiveW esHitW 0).1.countP (fun b => !b.active))
        + (bulletPass bsActiveW esHitW 0).2.1.length = esHitW.length ∧
    (bulletPass bsActiveW esHitW 0).2.2 + 10 * (bulletPass bsActiveW esHitW 0).2.1.length
        = 0 + 10 * esHitW.length :=
  ⟨by intro b hb; rcases List.mem_singleton.1 hb with rfl; rfl,
    (collision_resolution_spec bsActiveW esHitW 0
      (by intro b hb; rcases List.mem_singleton.1 hb with rfl; rfl)).2.2.2.2.2.2.1,
    (collision_resolution_spec bsActiveW esHitW 0
      (by intro b hb; rcases List.mem_singleton.1 hb with rfl; rfl)).1⟩

/-- The concrete pre-tick state of the C3 counterexample: one active bullet
that will overlap the single enemy after this tick's movement. -/
def s0c3 : GameState :=
  { GameState.init with
    bullets := [{ rect := { x := 200, y := 130, w := 6, h := 12 }, speed := 8, active := true }],
    enemies := [{ rect := { x := 180, y := 100, w := 40, h := 30 }, speed := 1 }] }

set_option maxRecDepth 1000000 in
/-- C3 counterexample: on the tick in which the bullet collides, the score
and enemy removal happen, but the bullet is only deactivated: it is still in
the bullet collection at the end of the tick, and only the following tick's
filter removes it. -/
theorem collided_bullet_not_removed_cex :
    (s0c3.update).score = 10 ∧
    (s0c3.update).enemies = [] ∧
    (s0c3.update).bullets
      = [{ rect := { x := 200, y := 122, w := 6, h := 12 }, speed := 8, active := false }] ∧
    (s0c3.update).bullets ≠ [] ∧
    ((s0c3.update).update).bullets = [] := by decide

/-- C3 amended: a bullet colliding with an enemy on tick N is deactivated in
place (the collision pass removes no bullet from the collection); the
deactivated bullet can never survive the bullet filter, and an inactive
bullet stays inactive under movement, so it is removed at the start of tick
N + 1 rather than by the end of tick N. -/
theorem collided_bullet_removed_next_tick (s : GameState) :
    (bulletPass s.bullets s.enemies s.score).1.length = s.bullets.length ∧
    (∀ b2 ∈ (bulletPass s.bullets s.enemies s.score).1,
      b2 ∈ s.bullets ∨ ∃ b0 ∈ s.bullets, b2 = { b0 with active := false }) ∧
    (∀ b ∈ bulletFilterPhase s.bullets, b.active = true) ∧
    (∀ b : Bullet, b.active = false → (Bullet.update b).active = false) := by
  refine ⟨bulletPass_bullets_length s.bullets s.enemies s.score,
    bulletPass_bullets_shape s.bullets s.enemies s.score, ?_, ?_⟩
  · intro b hb
    exact (List.mem_filter.1 hb).2
  · intro b hb
    simp only [Bullet.update]
    split
    · rfl
    · exact hb

/-- An inactive bullet used in the C3 amended-claim witness. -/
def bInactiveW : Bullet := { rect := { x := 0, y := 0, w := 6, h := 12 }, speed := 8, active := false }

theorem collided_bullet_removed_next_tick_witness :
    (bulletPass s0c3.bullets s0c3.enemies s0c3.score).1.length = s0c3.bullets.length ∧
    (Bullet.update bInactiveW).active = false :=
  ⟨(collided_bullet_removed_next_tick s0c3).1,
    (collided_bullet_removed_next_tick s0c3).2.2.2 bInactiveW rfl⟩

/-- The concrete pre-tick state of the C2 counterexample: a single enemy
whose right edge sits exactly on the drop margin while the formation heads
right. -/
def s0c2 : GameState :=
  { GameState.init with
    enemies := [{ rect := { x := 750, y := 100, w := 40, h := 30 }, speed := 5 }] }

/-- C2 counterexample: on the drop tick the enemy moves left by its speed
(the direction is flipped before the horizontal displacement of the same
tick), landing at x = 745 rather than at the x = 755 the pre-flip direction
would give; the drop and the speed scaling do apply on the current tick. -/
theorem drop_tick_direction_cex :
    s0c2.enemies = [{ rect := { x := 750, y := 100, w := 40, h := 30 }, speed := 5 }] ∧
    s0c2.enemy_direction = 1 ∧
    (s0c2.update).enemies = [{ rect := { x := 745, y := 120, w := 40, h := 30 }, speed := 6 }] ∧
    (s0c2.update).enemy_direction = -1 ∧
    (745 : Int) ≠ 750 + 5 * 1 := by decide

/-- C2 amended: on a drop tick the horizontal displacement of the current
tick already uses the flipped direction; the vertical step and the
rounded-up speed scaling also apply on the current tick, and the flipped
direction is the stored direction for following ticks. -/
theorem advance_drop_flipped (es : List Enemy) :
    (rightmostEdge es ≥ WIDTH - 10 →
      advanceFormation es 1 = (es.map (fun e => Enemy.drop (Enemy.moveX (-1) e)), -1)) ∧
    (leftmostEdge es ≤ 10 →
      advanceFormation es (-1) = (es.map (fun e => Enemy.drop (Enemy.moveX 1 e)), 1)) := by
  constructor
  · intro h
    have h1 : ¬(leftmostEdge es ≤ 10 ∧ (1 : Int) < 0) := by
      rintro ⟨-, hcon⟩
      omega
    have hd : newDirection es 1 = -1 := by
      unfold newDirection
      rw [if_neg h1, if_pos ⟨h, by omega⟩]
    have hm : moveDown es 1 = true := by
      unfold moveDown
      rw [Bool.or_eq_true]
      exact Or.inr (decide_eq_true ⟨h1, h, by omega⟩)
    simp only [advanceFormation, hd, hm, if_true, List.map_map]
    rfl
  · intro h
    have h1 : leftmostEdge es ≤ 10 ∧ (-1 : Int) < 0 := ⟨h, by omega⟩
    have hd : newDirection es (-1) = 1 := by
      unfold newDirection
      rw [if_pos h1]
    have hm : moveDown es (-1) = true := by
      unfold moveDown
      rw [Bool.or_eq_true]
      exact Or.inl (decide_eq_true h1)
    simp only [advanceFormation, hd, hm, if_true, List.map_map]
    rfl

/-- The enemy list of the C2 amended-claim witness. -/
def esDropW : List Enemy := [{ rect := { x := 750, y := 100, w := 40, h := 30 }, speed := 5 }]

theorem advance_drop_flipped_witness :
    rightmostEdge esDropW ≥ WIDTH - 10 ∧
    advanceFormation esDropW 1 = (esDropW.map (fun e => Enemy.drop (Enemy.moveX (-1) e)), -1) :=
  ⟨by decide, (advance_drop_flipped esDropW).1 (by decide)⟩

end SpaceInvaders

namespace SpaceInvaders

lemma Enemy.moveX_bottom (d : Int) (e : Enemy) :
    (Enemy.moveX d e).rect.bottom = e.rect.bottom := rfl

lemma advance_enemyGrid (L : Nat) :
    advanceFormation (enemyGrid L) 1 = ((enemyGrid L).map (Enemy.moveX 1), 1) := by
  have h1 : ¬(leftmostEdge (enemyGrid L) ≤ 10 ∧ (1 : Int) < 0) := by
    rintro ⟨-, hcon⟩
    omega
  have h2 : ¬(rightmostEdge (enemyGrid L) ≥ WIDTH - 10 ∧ (1 : Int) > 0) := by
    rw [rightmostEdge_enemyGrid]
    rintro ⟨hcon, -⟩
    simp only [WIDTH] at hcon
    omega
  have hd : newDirection (enemyGrid L) 1 = 1 := by
    unfold newDirection
    rw [if_neg h1, if_neg h2]
  have hm : moveDown (enemyGrid L) 1 = false := by
    unfold moveDown
    rw [Bool.or_eq_false_iff]
    exact ⟨decide_eq_false h1, decide_eq_false (by rintro ⟨-, hcon, -⟩; exact h2 ⟨hcon, by omega⟩)⟩
  simp only [advanceFormation, hd, hm]
  simp

lemma spawnPhase_of_empty (s : GameState) (hempty : s.enemies = []) :
    s.spawnPhase = GameState.spawn_enemies { s with level := s.level + 1 } := by
  unfold GameState.spawnPhase
  rw [if_pos]
  rw [hempty]
  rfl

/-- The state of _update just before the formation advance, when the tick
started with no enemies: level bumped, fresh grid, direction reset. -/
lemma pre_advance_of_empty (s : GameState) (hempty : s.enemies = []) :
    (s.prePhase).spawnPhase =
      { s with
        player := s.player.update,
        bullets := bulletFilterPhase s.bullets,
        enemies := enemyGrid (s.level + 1),
        enemy_direction := 1,
        level := s.level + 1 } := by
  have hpre : (s.prePhase).enemies = [] := hempty
  rw [spawnPhase_of_empty (s.prePhase) hpre]
  rfl

lemma mid_of_empty (s : GameState) (hempty : s.enemies = []) :
    ((s.prePhase).spawnPhase).advanceStep =
      { s with
        player := s.player.update,
        bullets := bulletFilterPhase s.bullets,
        enemies := (enemyGrid (s.level + 1)).map (Enemy.moveX 1),
        enemy_direction := 1,
        level := s.level + 1 } := by
  rw [GameState.advanceStep, pre_advance_of_empty s hempty]
  simp only [advance_enemyGrid]

end SpaceInvaders

namespace SpaceInvaders

lemma handle_collisions_no_threat (s : GameState)
    (h : enemyThreat s.player (bulletPass s.bullets s.enemies s.score).2.1 = false) :
    s.handle_collisions = s.postBullets := by
  rw [handle_collisions_eq, if_neg]
  rw [h]
  simp

lemma threat_false_of_high_bottom (p : Player) (es : List Enemy)
    (hp : p.rect.y = HEIGHT - 60)
    (hb : ∀ e ∈ es, e.rect.bottom ≤ 230) :
    enemyThreat p es = false := by
  unfold enemyThreat
  rw [List.any_eq_false]
  intro e he
  have hbe := hb e he
  simp only [Rect.bottom] at hbe
  simp only [HEIGHT] at hp
  intro hcon
  rw [Bool.or_eq_true] at hcon
  rcases hcon with h1 | h2
  · unfold Rect.colliderect at h1
    have h1p := of_decide_eq_true h1
    omega
  · have h2p := of_decide_eq_true h2
    simp only [Rect.bottom, HEIGHT] at h2p
    omega

/-- C1 amended: on a tick that starts with no enemies, the level is
incremented and a fresh wave spawned with direction reset to +1, but the
formation advance of the same tick is not skipped: every surviving enemy
ends the spawn tick at its spawn-grid position shifted horizontally by its
own speed (one advance with the reset direction +1), not at the spawn-grid
position itself; with no bullets in flight the surviving enemies are exactly
the whole shifted grid. -/
theorem spawn_tick_advances (s : GameState) (hempty : s.enemies = [])
    (hy : s.player.rect.y = HEIGHT - 60) :
    (s.update).level = s.level + 1 ∧
    (s.update).enemy_direction = 1 ∧
    (∀ e ∈ (s.update).enemies, e ∈ (enemyGrid (s.level + 1)).map (Enemy.moveX 1)) ∧
    (s.bullets = [] → (s.update).enemies = (enemyGrid (s.level + 1)).map (Enemy.moveX 1)) := by
  rw [update_decomp, mid_of_empty s hempty]
  set M : GameState :=
    { s with
      player := s.player.update,
      bullets := bulletFilterPhase s.bullets,
      enemies := (enemyGrid (s.level + 1)).map (Enemy.moveX 1),
      enemy_direction := 1,
      level := s.level + 1 } with hM
  have hMplayer : M.player = s.player.update := by rw [hM]
  have hMbullets : M.bullets = bulletFilterPhase s.bullets := by rw [hM]
  have hMenemies : M.enemies = (enemyGrid (s.level + 1)).map (Enemy.moveX 1) := by rw [hM]
  have hMlevel : M.level = s.level + 1 := by rw [hM]
  have hMdir : M.enemy_direction = 1 := by rw [hM]
  have hthr : enemyThreat M.player (bulletPass M.bullets M.enemies M.score).2.1 = false := by
    apply threat_false_of_high_bottom
    · rw [hMplayer, Player.update_rect]
      exact hy
    · intro e he
      have hsub := bulletPass_enemies_subset M.bullets M.enemies M.score he
      rw [hMenemies] at hsub
      rcases List.mem_map.1 hsub with ⟨e0, he0, rfl⟩
      rw [Enemy.moveX_bottom]
      exact (enemyGrid_bottom_le he0).1
  rw [handle_collisions_no_threat M hthr]
  refine ⟨hMlevel, hMdir, ?_, ?_⟩
  · intro e he
    have hsub := bulletPass_enemies_subset M.bullets M.enemies M.score he
    rw [hMenemies] at hsub
    exact hsub
  · intro hb
    show (bulletPass M.bullets M.enemies M.score).2.1 = (enemyGrid (s.level + 1)).map (Enemy.moveX 1)
    rw [hMbullets, hb]
    show (bulletPass [] M.enemies M.score).2.1 = (enemyGrid (s.level + 1)).map (Enemy.moveX 1)
    rw [show (bulletPass [] M.enemies M.score).2.1 = M.enemies from rfl, hMenemies]

/-- The concrete pre-tick state of the C1 counterexample: the initial state
with the enemy collection emptied. -/
def s0c1 : GameState := { GameState.init with enemies := [] }

set_option maxRecDepth 1000000 in
/-- C1 counterexample: after the tick that respawns the wave (level 2,
enemy start speed 2), the first surviving enemy sits at x = 172, while every
spawn-grid position of level 2 has x in 170, 230, ..., so the fresh wave was
advanced on the spawn tick and the surviving enemies do not occupy their
spawn-grid positions. -/
theorem spawn_tick_not_skipped_cex :
    (s0c1.update).level = 2 ∧
    ((s0c1.update).enemies.map (fun e => e.rect.x)).head? = some 172 ∧
    ((enemyGrid 2).map (fun e => e.rect.x)).head? = some 170 ∧
    ((enemyGrid 2).all (fun e => e.rect.x != 172)) = true ∧
    (s0c1.update).enemies ≠ enemyGrid 2 := by decide

theorem spawn_tick_advances_witness :
    s0c1.enemies = [] ∧ s0c1.player.rect.y = HEIGHT - 60 ∧
    (s0c1.update).level = s0c1.level + 1 :=
  ⟨rfl, rfl, (spawn_tick_advances s0c1 rfl rfl).1⟩

end SpaceInvaders
